import Mathlib

/-!
# Verification of the CelestiaTrack event-aggregation core

Shallow embedding of the multi-source astronomical-event aggregation pipeline
from `home/views.py` and `home/utils.py`:

* `parse_iso` embeds `_parse_iso` (views.py), over a model of Python
  `datetime.fromisoformat` / `datetime.isoformat`;
* `earliest_peak_from_events` embeds `_earliest_peak_from_events` (views.py),
  including the exceptions Python raises when `min` mixes `None` with
  datetimes or when `None.isoformat()` is reached;
* `fetch_astronomical_events` embeds the error-handling skeleton of the
  AstronomyAPI adapter (utils.py), the network outcome being a parameter;
* `fetch_twilight_events` embeds the Open-Meteo adapter (utils.py) over a
  parsed payload;
* `fetch_aurora_data` embeds the NOAA K-index adapter (utils.py); Python
  floats are modelled by exact decimal rationals;
* `fetch_all_events` embeds the aggregator (views.py): the per-body adapter
  results and the twilight result are parameters, mutation is explicit state
  passing, a raised exception is an `Except.error`;
* `paginate` embeds the offset/limit slicing of `events_api` (views.py).
-/

namespace CelestiaTrack

/-! ## Python `datetime` model -/

/-- Model of a Python `datetime` value: naive calendar fields plus an optional
UTC offset in seconds (`tzinfo`); `tzinfo = none` is a naive datetime. -/
structure PyDatetime where
  year : Nat
  month : Nat
  day : Nat
  hour : Nat
  minute : Nat
  second : Nat
  microsecond : Nat
  tzinfo : Option Int
deriving DecidableEq, Repr

/-- Gregorian leap-year test, as in Python `calendar.isleap`. -/
def isLeapYear (y : Nat) : Bool :=
  (y % 4 == 0 && y % 100 != 0) || y % 400 == 0

/-- Number of days in a month of a given year. -/
def daysInMonth (y m : Nat) : Nat :=
  if m = 2 then (if isLeapYear y then 29 else 28)
  else if m = 4 ∨ m = 6 ∨ m = 9 ∨ m = 11 then 30
  else 31

/-- Day count of a civil date on a proleptic Gregorian calendar (days since
0000-03-01, valid for years 1..9999); used only for instant comparison. -/
def daysFromCivil (y m d : Nat) : Nat :=
  let yy := if m ≤ 2 then y - 1 else y
  let era := yy / 400
  let yoe := yy % 400
  let mp := (m + 9) % 12
  let doy := (153 * mp + 2) / 5 + d - 1
  let doe := yoe * 365 + yoe / 4 - yoe / 100 + doy
  era * 146097 + doe

/-- Microseconds of the naive (offset-ignored) part of a datetime. -/
def naiveMicros (dt : PyDatetime) : Nat :=
  daysFromCivil dt.year dt.month dt.day * 86400000000
    + dt.hour * 3600000000 + dt.minute * 60000000
    + dt.second * 1000000 + dt.microsecond

/-- The instant a datetime denotes, in microseconds: naive part minus its UTC
offset.  Python compares offset-aware datetimes by this instant. -/
def instantMicros (dt : PyDatetime) : Int :=
  (naiveMicros dt : Int) - dt.tzinfo.getD 0 * 1000000

/-- `datetime.max.replace(tzinfo=timezone.utc)`, the sort sentinel used by
`fetch_all_events` for an unparseable peak. -/
def datetimeMax : PyDatetime :=
  ⟨9999, 12, 31, 23, 59, 59, 999999, some 0⟩

/-! ## `datetime.fromisoformat` model -/

/-- Numeric value of a run of decimal digits. -/
def digitsToNat (cs : List Char) : Nat :=
  cs.foldl (fun n c => n * 10 + (c.toNat - 48)) 0

/-- Consume exactly `k` decimal digits from the front of a character list. -/
def takeDigits : Nat → List Char → Option (List Char × List Char)
  | 0, cs => some ([], cs)
  | _ + 1, [] => none
  | k + 1, c :: cs =>
    if c.isDigit then (takeDigits k cs).map (fun p => (c :: p.1, p.2)) else none

/-- Parse the time-of-day part `HH[:MM[:SS[.f{1..6}]]]`, returning
`(hour, minute, second, microsecond, rest)`. -/
def parseHMS (cs : List Char) : Option (Nat × Nat × Nat × Nat × List Char) := do
  let (hd, r1) ← takeDigits 2 cs
  let hour := digitsToNat hd
  match r1 with
  | ':' :: r2 =>
    let (md, r3) ← takeDigits 2 r2
    let minute := digitsToNat md
    match r3 with
    | ':' :: r4 =>
      let (sd, r5) ← takeDigits 2 r4
      let second := digitsToNat sd
      match r5 with
      | '.' :: r6 =>
        let ds := r6.takeWhile Char.isDigit
        let rest := r6.dropWhile Char.isDigit
        if ds.length = 0 ∨ 6 < ds.length then none
        else some (hour, minute, second, digitsToNat ds * 10 ^ (6 - ds.length), rest)
      | _ => some (hour, minute, second, 0, r5)
    | _ => some (hour, minute, 0, 0, r3)
  | _ => some (hour, 0, 0, 0, r1)

/-- Parse a trailing UTC offset: empty input means a naive result, otherwise
the whole rest must be `(+|-)HH:MM[:SS]`; yields the offset in seconds. -/
def parseTZ (cs : List Char) : Option (Option Int) :=
  match cs with
  | [] => some none
  | sign :: r1 =>
    if sign = '+' ∨ sign = '-' then do
      let (hd, r2) ← takeDigits 2 r1
      match r2 with
      | ':' :: r3 => do
        let (md, r4) ← takeDigits 2 r3
        let (secs, rest) ← (match r4 with
          | ':' :: r5 => (takeDigits 2 r5).map (fun p => (digitsToNat p.1, p.2))
          | _ => some (0, r4))
        let hh := digitsToNat hd
        let mm := digitsToNat md
        if rest = [] ∧ hh ≤ 23 ∧ mm ≤ 59 ∧ secs ≤ 59 then
          let total : Int := (hh * 3600 + mm * 60 + secs : Nat)
          some (some (if sign = '-' then -total else total))
        else none
      | _ => none
    else none

/-- Model of Python `datetime.fromisoformat`: accepts
`YYYY-MM-DD[<sep>HH[:MM[:SS[.f{1..6}]]]][(+|-)HH:MM[:SS]]` with any single
separator character, validating calendar and time ranges; yields `none`
where Python raises `ValueError`. -/
def fromisoformat (s : String) : Option PyDatetime := do
  let cs := s.data
  let (yd, r1) ← takeDigits 4 cs
  let year := digitsToNat yd
  match r1 with
  | '-' :: r2 =>
    let (md, r3) ← takeDigits 2 r2
    let month := digitsToNat md
    match r3 with
    | '-' :: r4 =>
      let (dd, r5) ← takeDigits 2 r4
      let day := digitsToNat dd
      if 1 ≤ year ∧ 1 ≤ month ∧ month ≤ 12 ∧ 1 ≤ day ∧ day ≤ daysInMonth year month then
        match r5 with
        | [] => some ⟨year, month, day, 0, 0, 0, 0, none⟩
        | _sep :: r6 => do
          let (hour, minute, second, micro, r7) ← parseHMS r6
          if hour ≤ 23 ∧ minute ≤ 59 ∧ second ≤ 59 then
            let tz ← parseTZ r7
            some ⟨year, month, day, hour, minute, second, micro, tz⟩
          else none
      else none
    | _ => none
  | _ => none

/-! ## `_parse_iso` (views.py) -/

/-- Python `dt_str.replace("Z", "+00:00")`: every occurrence of `Z` is
replaced, not only a trailing one. -/
def replaceZ (s : String) : String :=
  ⟨s.data.flatMap (fun c => if c = 'Z' then ['+', '0', '0', ':', '0', '0'] else [c])⟩

/-- Embedding of `_parse_iso` (views.py): `none` input (Python `None`) and
the empty string are falsy and yield `none`; otherwise replace `Z`, parse,
and stamp UTC on a naive result; parse failure yields `none`. -/
def parse_iso (dtStr : Option String) : Option PyDatetime :=
  match dtStr with
  | none => none
  | some s =>
    if s = "" then none
    else
      match fromisoformat (replaceZ s) with
      | none => none
      | some dt =>
        if dt.tzinfo.isNone then some { dt with tzinfo := some 0 } else some dt

/-! ## `datetime.isoformat` model -/

/-- Zero-pad the decimal representation of `n` to width `w`. -/
def padNum (w n : Nat) : String :=
  let s := Nat.repr n
  ⟨List.replicate (w - s.length) '0' ++ s.data⟩

/-- The naive part of `datetime.isoformat()`:
`YYYY-MM-DDTHH:MM:SS[.ffffff]`, microseconds printed only when nonzero. -/
def isoformatNaive (dt : PyDatetime) : String :=
  padNum 4 dt.year ++ "-" ++ padNum 2 dt.month ++ "-" ++ padNum 2 dt.day
    ++ "T" ++ padNum 2 dt.hour ++ ":" ++ padNum 2 dt.minute ++ ":" ++ padNum 2 dt.second
    ++ (if dt.microsecond = 0 then "" else "." ++ padNum 6 dt.microsecond)

/-- A UTC offset rendered as Python renders it in `isoformat`:
`(+|-)HH:MM[:SS]`, the seconds only when nonzero. -/
def offsetSuffix (off : Int) : String :=
  let a := off.natAbs
  (if off < 0 then "-" else "+")
    ++ padNum 2 (a / 3600) ++ ":" ++ padNum 2 (a % 3600 / 60)
    ++ (if a % 60 = 0 then "" else ":" ++ padNum 2 (a % 60))

/-- Full `datetime.isoformat()`: naive part plus the offset when aware. -/
def isoformat (dt : PyDatetime) : String :=
  isoformatNaive dt ++ (match dt.tzinfo with
    | none => ""
    | some off => offsetSuffix off)

/-! ## Python exceptions and `min` over possibly-`None` datetimes -/

/-- The Python exceptions that the embedded code can raise. -/
inductive PyErr where
  | typeError
  | attributeError
  | indexError
  | valueError
  | httpError (status : Option Nat)
  | requestException
deriving DecidableEq, Repr

/-- Python comparison `a < b` between possibly-`None` datetimes: comparing
`None` with anything (including `None`) raises `TypeError`; aware datetimes
compare by instant. -/
def pyLtOpt : Option PyDatetime → Option PyDatetime → Except PyErr Bool
  | some a, some b => .ok (decide (instantMicros a < instantMicros b))
  | _, _ => .error .typeError

/-- Fold of Python `min` over the tail of the list: replace the current
minimum whenever a later element compares strictly smaller (so the first
minimal element wins ties). -/
def pyMinAux (cur : Option PyDatetime) :
    List (Option PyDatetime) → Except PyErr (Option PyDatetime)
  | [] => .ok cur
  | x :: rest =>
    match pyLtOpt x cur with
    | .error e => .error e
    | .ok true => pyMinAux x rest
    | .ok false => pyMinAux cur rest

/-- Python `min` on a list of possibly-`None` datetimes. -/
def pyMin : List (Option PyDatetime) → Except PyErr (Option PyDatetime)
  | [] => .error .valueError
  | x :: rest => pyMinAux x rest

/-! ## AstronomyAPI row model -/

/-- A `{date: ...}` object; `date := none` covers both a missing key and a
null value (the code only ever reads the key with `.get`). -/
structure DateObj where
  date : Option String
deriving DecidableEq, Repr

/-- The `{peak: {date}}` object nested in a sub-event's `eventHighlights`. -/
structure EventHighlights where
  peak : Option DateObj
deriving DecidableEq, Repr

/-- One sub-event of an AstronomyAPI row: `{type, eventHighlights}`. -/
structure SubEvent where
  type : Option String
  eventHighlights : Option EventHighlights
deriving DecidableEq, Repr

/-- The `{name}` object under a row's `body` key. -/
structure BodyObj where
  name : Option String
deriving DecidableEq, Repr

/-- The `{obscuration}` object under a row's `extraInfo` key; the value is
opaque to the aggregator and modelled by its JSON rendering. -/
structure ExtraInfo where
  obscuration : Option String
deriving DecidableEq, Repr

/-- One AstronomyAPI row, with every key the aggregator reads. -/
structure Row where
  body : Option BodyObj
  events : Option (List SubEvent)
  rise : Option DateObj
  set : Option DateObj
  transit : Option DateObj
  extraInfo : Option ExtraInfo
deriving DecidableEq, Repr

/-- `((ev.get("eventHighlights") or {}).get("peak") or {}).get("date")`. -/
def subEventPeak (ev : SubEvent) : Option String :=
  match ev.eventHighlights with
  | none => none
  | some hi =>
    match hi.peak with
    | none => none
    | some p => p.date

/-! ## `_earliest_peak_from_events` (views.py) -/

/-- Embedding of `_earliest_peak_from_events` (views.py): collect the truthy
sub-event peak strings, parse each with `_parse_iso`, take Python `min`, and
re-render the winner (UTC offsets re-render as a trailing `Z`).  Python
raises here when `min` compares `None` (TypeError) or when the minimum is
`None` and `.isoformat()` is called on it (AttributeError). -/
def earliest_peak_from_events (events : List SubEvent) : Except PyErr (Option String) :=
  if events = [] then .ok none
  else
    let peakStrs := (events.filterMap subEventPeak).filter (fun s => s ≠ "")
    let peaks : List (Option PyDatetime) := peakStrs.map (fun s => parse_iso (some s))
    if peaks = [] then .ok none
    else
      match pyMin peaks with
      | .error e => .error e
      | .ok none => .error .attributeError
      | .ok (some earliest) =>
        .ok (some (match earliest.tzinfo with
          | some off =>
            if off = 0 then isoformatNaive earliest ++ "Z" else isoformat earliest
          | none => isoformat earliest))

/-! ## The canonical Event record -/

/-- The heterogeneous `highlights` dict: either the first sub-event's
`eventHighlights` passed through by the aggregator (an empty dict when the
row has no sub-events), or the fixed Open-Meteo dict of the twilight
adapter. -/
inductive Highlights where
  | fromApi (h : EventHighlights)
  | openMeteo (source category description : String)
deriving DecidableEq, Repr

/-- The normalized event dict built by `fetch_all_events` and by
`fetch_twilight_events`.  Twilight dicts carry no `transit` key in Python;
here that is `transit := none`. -/
structure Event where
  body : String
  type : Option String
  peak : String
  rise : Option String
  set : Option String
  transit : Option String
  obscuration : Option String
  highlights : Highlights
deriving DecidableEq, Repr

/-! ## Open-Meteo twilight adapter (utils.py) -/

/-- The `daily` block of an Open-Meteo response.  The code reads only
`time`, `sunrise` and `sunset`; the astronomical-twilight arrays are part of
the provider schema but are never requested nor read. -/
structure DailyData where
  time : Option (List String)
  sunrise : Option (List String)
  sunset : Option (List String)
  astronomical_twilight_start : Option (List String)
  astronomical_twilight_end : Option (List String)
deriving DecidableEq, Repr

/-- A parsed Open-Meteo payload `{daily: {...}}`. -/
structure MeteoPayload where
  daily : Option DailyData
deriving DecidableEq, Repr

/-- The sunrise event dict appended by `fetch_twilight_events`. -/
def sunriseEvent (ts : String) : Event :=
  { body := "Sun", type := some "Sunrise", peak := ts, rise := some ts,
    set := none, transit := none, obscuration := none,
    highlights := .openMeteo "open_meteo" "twilight" "Local sunrise time" }

/-- The sunset event dict appended by `fetch_twilight_events`. -/
def sunsetEvent (ts : String) : Event :=
  { body := "Sun", type := some "Sunset", peak := ts, rise := some ts,
    set := none, transit := none, obscuration := none,
    highlights := .openMeteo "open_meteo" "twilight" "Local sunset time" }

/-- Embedding of `fetch_twilight_events` (utils.py): any request or HTTP
error is absorbed to `[]`; on success, for each index of `daily.time`, a
sunrise event is emitted when `sunrise[i]` exists and is truthy, then a
sunset event when `sunset[i]` exists and is truthy (an out-of-range index
behaves like a falsy entry). -/
def fetch_twilight_events (outcome : Except PyErr MeteoPayload) : List Event :=
  match outcome with
  | .error _ => []
  | .ok payload =>
    let daily := payload.daily.getD ⟨none, none, none, none, none⟩
    let dates := daily.time.getD []
    let sunrises := daily.sunrise.getD []
    let sunsets := daily.sunset.getD []
    (List.range dates.length).flatMap (fun i =>
      (if sunrises.getD i "" ≠ "" then [sunriseEvent (sunrises.getD i "")] else [])
        ++ (if sunsets.getD i "" ≠ "" then [sunsetEvent (sunsets.getD i "")] else []))

/-! ## AstronomyAPI adapter error handling (utils.py) -/

/-- The `{rows}` object under the response's `data` key. -/
structure RowsData where
  rows : Option (List Row)
deriving DecidableEq, Repr

/-- The parsed AstronomyAPI response body `{data: {rows: [...]}}`. -/
structure RespBody where
  data : Option RowsData
deriving DecidableEq, Repr

/-- Outcome of the HTTP round trip made by `fetch_astronomical_events`:
a 2xx response with a parsed JSON body (possibly null), an `HTTPError` from
`raise_for_status` (whose response may lack a status code), a
connection-level `RequestException`, or a `ValueError` from `.json()`. -/
inductive HttpOutcome where
  | success (body : Option RespBody)
  | httpError (status : Option Nat)
  | requestError
  | jsonError
deriving DecidableEq, Repr

/-- Embedding of `fetch_astronomical_events` (utils.py): on success extract
`((data.get("data") or {}).get("rows")) or []`; an HTTPError with status 404
yields `[]`, status 403 re-raises, any other HTTPError is logged and yields
`[]`; `RequestException` and `ValueError` are logged and yield `[]`. -/
def fetch_astronomical_events (outcome : HttpOutcome) : Except PyErr (List Row) :=
  match outcome with
  | .success body =>
    let d := body.getD ⟨none⟩
    .ok ((d.data.bind RowsData.rows).getD [])
  | .httpError status =>
    if status = some 404 then .ok []
    else if status = some 403 then .error (.httpError status)
    else .ok []
  | .requestError => .ok []
  | .jsonError => .ok []

/-! ## NOAA aurora adapter (utils.py) -/

/-- The record returned by `fetch_aurora_data`.  Python floats are modelled
by exact decimal rationals. -/
structure AuroraInfo where
  kp_index : ℚ
  status : String
  color : String
  timestamp : String
deriving DecidableEq, Repr

/-- Model of Python `float(s)` restricted to optional surrounding
whitespace, an optional sign and a plain decimal literal with at least one
digit; anything else is a parse failure (`ValueError`). -/
def pyFloat (s : String) : Option ℚ :=
  let cs := (s.data.dropWhile Char.isWhitespace).reverse.dropWhile Char.isWhitespace |>.reverse
  let (neg, cs) := match cs with
    | '-' :: rest => (true, rest)
    | '+' :: rest => (false, rest)
    | rest => (false, rest)
  let intPart := cs.takeWhile Char.isDigit
  let afterInt := cs.dropWhile Char.isDigit
  let (fracPart, rest) := match afterInt with
    | '.' :: r => (r.takeWhile Char.isDigit, r.dropWhile Char.isDigit)
    | r => ([], r)
  if rest = [] ∧ intPart.length + fracPart.length > 0 then
    let mag : ℚ := (digitsToNat intPart : ℚ)
      + (digitsToNat fracPart : ℚ) / ((10 : ℚ) ^ fracPart.length)
    some (if neg then -mag else mag)
  else none

/-- Embedding of `fetch_aurora_data` (utils.py): the fetched feed (or a
request/parse failure) is the parameter; with more than one row, the last
row is the most recent reading, its K-index column is parsed as a float and
classified; every failure path (including short feeds, short rows and
unparseable K-indexes, all exceptions in Python) yields `none`. -/
def fetch_aurora_data (outcome : Except PyErr (List (List String))) : Option AuroraInfo :=
  match outcome with
  | .error _ => none
  | .ok data =>
    if 1 < data.length then
      match data.getLast? with
      | none => none
      | some latest =>
        match latest.get? 1 with
        | none => none
        | some kstr =>
          match pyFloat kstr with
          | none => none
          | some kp =>
            match latest.get? 0 with
            | none => none
            | some ts =>
              some { kp_index := kp
                     status := if 5 ≤ kp then "High (Storm)"
                       else if 4 ≤ kp then "Moderate" else "Low"
                     color := if 5 ≤ kp then "danger"
                       else if 4 ≤ kp then "warning" else "success"
                     timestamp := ts }
    else none

/-! ## Pagination (events_api, views.py) -/

/-- Python list slicing `l[i:j]` with integer bounds: negative bounds count
from the end, clamped to `[0, len]`. -/
def pySlice {α : Type} (l : List α) (i j : Int) : List α :=
  let n : Int := l.length
  let start := if i < 0 then max (n + i) 0 else min i n
  let stop := if j < 0 then max (n + j) 0 else min j n
  (l.take stop.toNat).drop start.toNat

/-- Embedding of the pagination step of `events_api` (views.py):
`slice_ = all_events[offset:offset+limit]` and
`has_more = (offset + len(slice_)) < total`. -/
def paginate {α : Type} (events : List α) (offset limit : Int) : List α × Bool :=
  let s := pySlice events offset (offset + limit)
  (s, decide (offset + (s.length : Int) < (events.length : Int)))

/-! ## Aggregator `fetch_all_events` (views.py) -/

/-- Helper of `pySplitWs`: walk the characters, accumulating the current
token reversed; whitespace closes the token, empty tokens are dropped. -/
def splitWsAux : List Char → List Char → List String
  | [], acc => if acc = [] then [] else [⟨acc.reverse⟩]
  | c :: rest, acc =>
    if c.isWhitespace then
      (if acc = [] then [] else [⟨acc.reverse⟩]) ++ splitWsAux rest []
    else splitWsAux rest (c :: acc)

/-- Python `str.split()` with no arguments: split on whitespace runs,
dropping empty pieces. -/
def pySplitWs (s : String) : List String :=
  splitWsAux s.data []

/-- Python `str.capitalize()`: first character upper-cased, rest lowered. -/
def pyCapitalize (s : String) : String :=
  match s.data with
  | [] => ""
  | c :: rest => ⟨c.toUpper :: rest.map Char.toLower⟩

/-- `(row.get("body", {}) or {}).get("name", "")`, with a null name merged
into `""` (both are falsy and the code only tests truthiness before
splitting). -/
def rowName (row : Row) : String :=
  match row.body with
  | none => ""
  | some b => b.name.getD ""

/-- `name.split()[0] if name else body.capitalize()`: splitting a truthy
all-whitespace name gives an empty list, so indexing raises IndexError. -/
def baseNameOf (bodyKey : String) (row : Row) : Except PyErr String :=
  let name := rowName row
  if name = "" then .ok (pyCapitalize bodyKey)
  else
    match pySplitWs name with
    | [] => .error .indexError
    | t :: _ => .ok t

/-- `row.get(k, {}).get("date") if row.get(k) else None` for the `rise`,
`set` and `transit` keys. -/
def optDate : Option DateObj → Option String
  | some d => d.date
  | none => none

/-- Python truthiness of the intermediate `peak_date` (`None` and the empty
string are falsy). -/
def optFalsy : Option String → Bool
  | none => true
  | some s => s = ""

/-- The mutable state of the per-body loop that row processing touches: the
`seen` dedup set of `(peak, body)` pairs and the accumulated `events_data`
list. -/
structure RowState where
  seen : List (String × String)
  events_data : List Event
deriving DecidableEq, Repr

/-- The event dict appended by `fetch_all_events` for one AstronomyAPI row. -/
def rowEvent (base_name peak_date : String) (events : List SubEvent) (row : Row) : Event :=
  { body := base_name
    type := match events with | [] => some "rise-set" | e :: _ => e.type
    peak := peak_date
    rise := optDate row.rise
    set := optDate row.set
    transit := optDate row.transit
    obscuration := match row.extraInfo with | some x => x.obscuration | none => none
    highlights := .fromApi (match events with | [] => ⟨none⟩ | e :: _ => e.eventHighlights.getD ⟨none⟩) }

/-- The transit fallback used when the earliest sub-event peak is falsy:
`transit.get("date")` when `row.get("transit")` and that date are truthy,
otherwise nothing (and the row is discarded). -/
def transitFallback (row : Row) : Option String :=
  match row.transit with
  | some t =>
    match t.date with
    | some d => if d = "" then none else some d
    | none => none
  | none => none

/-- Processing of one AstronomyAPI row inside `fetch_all_events`: compute
the canonical body name, the earliest sub-event peak with transit fallback
(discarding the row when neither is truthy), then append the event unless
its `(peak, body)` pair was already seen.  An error is an exception escaping
this row's processing. -/
def processRow (bodyKey : String) (st : RowState) (row : Row) : Except PyErr RowState :=
  match baseNameOf bodyKey row with
  | .error e => .error e
  | .ok base_name =>
    let events := row.events.getD []
    match earliest_peak_from_events events with
    | .error e => .error e
    | .ok peakRes =>
      match (if optFalsy peakRes then transitFallback row else peakRes) with
      | none => .ok st
      | some peak_date =>
        if (peak_date, base_name) ∈ st.seen then .ok st
        else .ok { seen := st.seen ++ [(peak_date, base_name)],
                   events_data := st.events_data ++ [rowEvent base_name peak_date events row] }

/-- Process a body's rows in order; an exception aborts the remaining rows
but keeps the state mutations made so far, and is reported as the flag. -/
def processRows (bodyKey : String) : RowState → List Row → RowState × Bool
  | st, [] => (st, false)
  | st, row :: rest =>
    match processRow bodyKey st row with
    | .ok st2 => processRows bodyKey st2 rest
    | .error _ => (st, true)

/-- The fixed ten-body roster queried by `fetch_all_events`. -/
def celestial_bodies : List String :=
  ["sun", "moon", "mercury", "venus", "mars", "jupiter", "saturn", "uranus", "neptune", "pluto"]

/-- The per-body loop of `fetch_all_events`: each body's adapter outcome is
given by `f`.  A raising adapter call counts one failure; a body with
non-empty rows counts one success before its rows are processed, and an
exception during that processing counts one further failure. -/
def bodyLoop (f : String → Except PyErr (List Row)) :
    List String → RowState → Nat → Nat → RowState × Nat × Nat
  | [], st, s, fl => (st, s, fl)
  | b :: bs, st, s, fl =>
    match f b with
    | .error _ => bodyLoop f bs st s (fl + 1)
    | .ok rows =>
      if rows = [] then bodyLoop f bs st s fl
      else
        match processRows b st rows with
        | (st2, true) => bodyLoop f bs st2 (s + 1) (fl + 1)
        | (st2, false) => bodyLoop f bs st2 (s + 1) fl

/-- The sort key of `events_data.sort`:
`(_parse_iso(e["peak"]) or datetime.max.replace(tzinfo=utc), e["body"] or "")`
(`s or ""` is the identity on strings, so the body is used as is). -/
def sortKey (e : Event) : PyDatetime × String :=
  ((parse_iso (some e.peak)).getD datetimeMax, e.body)

/-- Lexicographic code-point comparison of character lists, the order Python
uses on strings (and the order of Lean's `String.lt`). -/
def charListLt : List Char → List Char → Bool
  | _, [] => false
  | [], _ :: _ => true
  | a :: as, b :: bs =>
    if a < b then true
    else if b < a then false
    else charListLt as bs

/-- Python `<` on strings: lexicographic by code point. -/
def pyStrLt (a b : String) : Bool :=
  charListLt a.data b.data

/-- Python comparison of two sort keys: aware datetimes compare by instant,
equal instants fall through to the body string. -/
def keyLtB (a b : PyDatetime × String) : Bool :=
  decide (instantMicros a.1 < instantMicros b.1) ||
    (decide (instantMicros a.1 = instantMicros b.1) && pyStrLt a.2 b.2)

/-- Stable insertion of an event into an already sorted list: the new event
goes after every element whose key is not strictly greater. -/
def insertEvent (e : Event) : List Event → List Event
  | [] => [e]
  | f :: rest =>
    if keyLtB (sortKey e) (sortKey f) then e :: f :: rest else f :: insertEvent e rest

/-- Python's stable ascending `list.sort` by `sortKey`, as an insertion
sort. -/
def pySortEvents (l : List Event) : List Event :=
  l.foldl (fun acc e => insertEvent e acc) []

/-- The twilight contribution to `events_data`: the fetched list, or nothing
when `fetch_twilight_events` raised (the call is wrapped in try/except). -/
def twilightList : Except PyErr (List Event) → List Event
  | .ok tw => tw
  | .error _ => []

/-- Embedding of `fetch_all_events` (views.py).  `f` gives each body's
AstronomyAPI adapter outcome and `twRes` the twilight adapter outcome; the
result is the sorted merged list, or the aggregate `RuntimeError` when no
body produced rows and at least one failure occurred. -/
def fetch_all_events (f : String → Except PyErr (List Row))
    (twRes : Except PyErr (List Event)) : Except String (List Event) :=
  let r := bodyLoop f celestial_bodies ⟨[], []⟩ 0 0
  let events_data := r.1.events_data ++ twilightList twRes
  if r.2.1 = 0 ∧ 0 < r.2.2 then .error "Upstream Radiant Drift API failure"
  else .ok (pySortEvents events_data)

/-! ## Helper lemmas -/

theorem flatMapZ_id {cs : List Char} (h : 'Z' ∉ cs) :
    cs.flatMap (fun c => if c = 'Z' then ['+', '0', '0', ':', '0', '0'] else [c]) = cs := by
  induction cs with
  | nil => rfl
  | cons c rest ih =>
    simp only [List.mem_cons, not_or] at h
    have hc : ¬(c = 'Z') := fun hc => h.1 hc.symm
    simp only [List.flatMap_cons, if_neg hc, ih h.2, List.singleton_append]

theorem replaceZ_mk (cs : List Char) :
    replaceZ ⟨cs⟩ =
      ⟨cs.flatMap (fun c => if c = 'Z' then ['+', '0', '0', ':', '0', '0'] else [c])⟩ := rfl

theorem mk_ne_empty {cs : List Char} (h : cs ≠ []) : (⟨cs⟩ : String) ≠ "" := by
  intro hs
  exact h (congrArg String.data hs)

/-! ## Claim C5 -/

/-- C5: `_parse_iso` never raises and returns either `none` (on `None`
input or parse failure) or an offset-aware instant; for a string whose only
`Z` is the trailing one, the result equals parsing the same string with the
`Z` replaced by `+00:00`; a parsed result carrying no offset is assumed UTC;
`_parse_iso(None) == None` and `_parse_iso("not-a-date") == None`. -/
theorem C5_parse_iso_contract :
    (parse_iso none = none ∧ parse_iso (some "not-a-date") = none)
    ∧ (∀ s : String, parse_iso (some s) = none ∨
        ∃ dt, parse_iso (some s) = some dt ∧ dt.tzinfo.isSome)
    ∧ (∀ cs : List Char, 'Z' ∉ cs →
        parse_iso (some ⟨cs ++ ['Z']⟩) =
          parse_iso (some ⟨cs ++ ['+', '0', '0', ':', '0', '0']⟩))
    ∧ (∀ s dt, s ≠ "" → fromisoformat (replaceZ s) = some dt → dt.tzinfo = none →
        parse_iso (some s) = some { dt with tzinfo := some 0 }) := by
  refine ⟨⟨rfl, by decide⟩, ?_, ?_, ?_⟩
  · intro s
    by_cases hs : s = ""
    · left; simp [parse_iso, hs]
    · cases hfm : fromisoformat (replaceZ s) with
      | none => left; simp [parse_iso, hs, hfm]
      | some dt =>
        cases htz : dt.tzinfo with
        | none =>
          right
          exact ⟨{ dt with tzinfo := some 0 }, by simp [parse_iso, hs, hfm, htz], rfl⟩
        | some off =>
          right
          exact ⟨dt, by simp [parse_iso, hs, hfm, htz], by simp [htz]⟩
  · intro cs h
    have hplus : 'Z' ∉ ['+', '0', '0', ':', '0', '0'] := by decide
    have h1 : replaceZ ⟨cs ++ ['Z']⟩ = ⟨cs ++ ['+', '0', '0', ':', '0', '0']⟩ := by
      rw [replaceZ_mk]
      congr 1
      rw [List.flatMap_append, flatMapZ_id h]
      rfl
    have h2 : replaceZ ⟨cs ++ ['+', '0', '0', ':', '0', '0']⟩ =
        ⟨cs ++ ['+', '0', '0', ':', '0', '0']⟩ := by
      rw [replaceZ_mk]
      congr 1
      exact flatMapZ_id (by simp [h, hplus])
    have hne1 : (⟨cs ++ ['Z']⟩ : String) ≠ "" := mk_ne_empty (by simp)
    have hne2 : (⟨cs ++ ['+', '0', '0', ':', '0', '0']⟩ : String) ≠ "" :=
      mk_ne_empty (by simp)
    simp only [parse_iso, if_neg hne1, if_neg hne2, h1, h2]
  · intro s dt hs hfm htz
    simp [parse_iso, hs, hfm, htz]

/-- Witness for C5: the trailing-`Z` equivalence and the concrete values at
an explicit input. -/
theorem C5_parse_iso_contract_witness :
    parse_iso (some ⟨"2025-01-01T00:00:00".data ++ ['Z']⟩) =
      parse_iso (some ⟨"2025-01-01T00:00:00".data ++ ['+', '0', '0', ':', '0', '0']⟩) :=
  C5_parse_iso_contract.2.2.1 "2025-01-01T00:00:00".data (by decide)

/-! ## Claim C6 -/

/-- C6 counterexample: a daily payload with one date and both
astronomical-twilight fields populated yields NO events (the claim says
exactly 2 events with twilight types): the adapter requests and reads only
`sunrise`/`sunset`, so the twilight arrays are ignored. -/
theorem C6_counterexample :
    fetch_twilight_events (.ok ⟨some ⟨some ["2025-01-01"], none, none,
      some ["2025-01-01T05:00"], some ["2025-01-01T19:00"]⟩⟩) = [] := rfl

/-- C6 amended: given a daily payload with one date and both `sunrise` and
`sunset` populated, the twilight adapter returns exactly 2 events whose
types are "Sunrise" and "Sunset", each with peak equal to the provider's
`<date>T<time>` timestamp string. -/
theorem C6_twilight_amended (d s1 s2 : String) (h1 : s1 ≠ "") (h2 : s2 ≠ "") :
    fetch_twilight_events (.ok ⟨some ⟨some [d], some [s1], some [s2], none, none⟩⟩) =
      [sunriseEvent s1, sunsetEvent s2]
    ∧ (sunriseEvent s1).type = some "Sunrise" ∧ (sunriseEvent s1).peak = s1
    ∧ (sunsetEvent s2).type = some "Sunset" ∧ (sunsetEvent s2).peak = s2 := by
  refine ⟨?_, rfl, rfl, rfl, rfl⟩
  simp [fetch_twilight_events, List.range_succ, h1, h2]

/-- Witness for C6's amended theorem at a concrete payload. -/
theorem C6_twilight_amended_witness :
    fetch_twilight_events (.ok ⟨some ⟨some ["2025-01-01"], some ["2025-01-01T06:00"],
        some ["2025-01-01T18:00"], none, none⟩⟩) =
      [sunriseEvent "2025-01-01T06:00", sunsetEvent "2025-01-01T18:00"] :=
  (C6_twilight_amended "2025-01-01" "2025-01-01T06:00" "2025-01-01T18:00"
    (by decide) (by decide)).1

/-! ## Claim C7 -/

/-- C7 counterexample: an HTTP 401 response and a connection-level failure
are both absorbed to an empty list, not surfaced as exceptions as the claim
states. -/
theorem C7_counterexample :
    fetch_astronomical_events (.httpError (some 401)) = .ok []
    ∧ fetch_astronomical_events .requestError = .ok [] := ⟨rfl, rfl⟩

/-- C7 amended: HTTP 404 yields an empty list; HTTP 403 is surfaced as an
exception; every other HTTP error status (401 included), connection-level
failures and JSON parse errors are logged and yield an empty list; a
success extracts `((data.get("data") or {}).get("rows")) or []`. -/
theorem C7_error_handling_amended :
    (fetch_astronomical_events (.httpError (some 404)) = .ok [])
    ∧ (fetch_astronomical_events (.httpError (some 403)) = .error (.httpError (some 403)))
    ∧ (∀ status : Option Nat, status ≠ some 404 → status ≠ some 403 →
        fetch_astronomical_events (.httpError status) = .ok [])
    ∧ (fetch_astronomical_events .requestError = .ok [])
    ∧ (fetch_astronomical_events .jsonError = .ok [])
    ∧ (∀ body, fetch_astronomical_events (.success body) =
        .ok (((body.getD ⟨none⟩).data.bind RowsData.rows).getD [])) := by
  refine ⟨rfl, rfl, ?_, rfl, rfl, fun body => rfl⟩
  intro status h404 h403
  simp [fetch_astronomical_events, h404, h403]

/-- Witness for C7's amended theorem at status 500. -/
theorem C7_error_handling_amended_witness :
    fetch_astronomical_events (.httpError (some 500)) = .ok [] :=
  C7_error_handling_amended.2.2.1 (some 500) (by decide) (by decide)


/-! ## Claim C8 -/

theorem classify_facts (kp : ℚ) :
    (kp < 4 →
      (if 5 ≤ kp then "High (Storm)" else if 4 ≤ kp then "Moderate" else "Low") = "Low"
      ∧ (if 5 ≤ kp then "danger" else if 4 ≤ kp then "warning" else "success") = "success")
    ∧ (4 ≤ kp → kp < 5 →
      (if 5 ≤ kp then "High (Storm)" else if 4 ≤ kp then "Moderate" else "Low") = "Moderate"
      ∧ (if 5 ≤ kp then "danger" else if 4 ≤ kp then "warning" else "success") = "warning")
    ∧ (5 ≤ kp →
      (if 5 ≤ kp then "High (Storm)" else if 4 ≤ kp then "Moderate" else "Low") = "High (Storm)"
      ∧ (if 5 ≤ kp then "danger" else if 4 ≤ kp then "warning" else "success") = "danger") := by
  refine ⟨fun h4 => ⟨?_, ?_⟩, fun h4 h5 => ⟨?_, ?_⟩, fun h5 => ⟨?_, ?_⟩⟩
  · rw [if_neg (by linarith), if_neg (by linarith)]
  · rw [if_neg (by linarith), if_neg (by linarith)]
  · rw [if_neg (by linarith), if_pos (by linarith)]
  · rw [if_neg (by linarith), if_pos (by linarith)]
  · rw [if_pos h5]
  · rw [if_pos h5]

theorem aurora_classified (outcome : Except PyErr (List (List String))) (r : AuroraInfo)
    (h : fetch_aurora_data outcome = some r) :
    (r.kp_index < 4 → r.status = "Low" ∧ r.color = "success")
    ∧ (4 ≤ r.kp_index → r.kp_index < 5 → r.status = "Moderate" ∧ r.color = "warning")
    ∧ (5 ≤ r.kp_index → r.status = "High (Storm)" ∧ r.color = "danger") := by
  match outcome with
  | .error e => exact absurd h (by simp [fetch_aurora_data])
  | .ok data =>
    rw [fetch_aurora_data] at h
    by_cases hlen : 1 < data.length
    · rw [if_pos hlen] at h
      cases hlast : data.getLast? with
      | none => simp only [hlast] at h; exact absurd h (by simp)
      | some latest =>
        simp only [hlast] at h
        cases hk : latest.get? 1 with
        | none => simp only [hk] at h; exact absurd h (by simp)
        | some kstr =>
          simp only [hk] at h
          cases hf : pyFloat kstr with
          | none => simp only [hf] at h; exact absurd h (by simp)
          | some kp =>
            simp only [hf] at h
            cases h0 : latest.get? 0 with
            | none => simp only [h0] at h; exact absurd h (by simp)
            | some ts =>
              simp only [h0, Option.some_inj] at h
              subst h
              exact ⟨fun h4 => (classify_facts kp).1 h4,
                fun h4 h5 => (classify_facts kp).2.1 h4 h5,
                fun h5 => (classify_facts kp).2.2 h5⟩
    · rw [if_neg hlen] at h; exact absurd h (by simp)

theorem aurora_of_feed (data : List (List String)) (latest : List String)
    (kstr : String) (kp : ℚ) (hlen : 1 < data.length) (hlast : data.getLast? = some latest)
    (hk : latest.get? 1 = some kstr) (hf : pyFloat kstr = some kp) :
    ∃ ts, latest.get? 0 = some ts ∧
      fetch_aurora_data (.ok data) =
        some ⟨kp,
          if 5 ≤ kp then "High (Storm)" else if 4 ≤ kp then "Moderate" else "Low",
          if 5 ≤ kp then "danger" else if 4 ≤ kp then "warning" else "success", ts⟩ := by
  cases h0 : latest.get? 0 with
  | none =>
    rw [List.get?_eq_none] at h0
    have h1 : latest.get? 1 = none := List.get?_eq_none.mpr (by omega)
    rw [h1] at hk
    exact absurd hk (by simp)
  | some ts =>
    refine ⟨ts, rfl, ?_⟩
    simp only [fetch_aurora_data, if_pos hlen, hlast, hk, hf, h0]

theorem pyFloat_233 : pyFloat "2.33" = some (2.33 : ℚ) := by
  have h1 : pyFloat "2.33" =
      some ((digitsToNat ['2'] : ℚ) + (digitsToNat ['3', '3'] : ℚ) / (10 : ℚ) ^ (2 : ℕ)) :=
    rfl
  rw [h1, show digitsToNat ['2'] = 2 from rfl, show digitsToNat ['3', '3'] = 33 from rfl]
  norm_num

theorem pyFloat_667 : pyFloat "6.67" = some (6.67 : ℚ) := by
  have h1 : pyFloat "6.67" =
      some ((digitsToNat ['6'] : ℚ) + (digitsToNat ['6', '7'] : ℚ) / (10 : ℚ) ^ (2 : ℕ)) :=
    rfl
  rw [h1, show digitsToNat ['6'] = 6 from rfl, show digitsToNat ['6', '7'] = 67 from rfl]
  norm_num

/-- C8: the aurora adapter takes the last row of the feed as most recent,
parses its K-index column as a float, and classifies `kp < 4` as
Low/success, `4 ≤ kp < 5` as Moderate/warning and `5 ≤ kp` as
High (Storm)/danger; the `"2.33"` feed row yields exactly
`{kp_index: 2.33, status: "Low", color: "success"}` and the `"6.67"` row
yields the danger tier; every failure path yields `none` (the absence
signal is null, never an empty list — the codomain is an optional record,
not a list). -/
theorem C8_aurora_classification :
    (∀ outcome r, fetch_aurora_data outcome = some r →
        (r.kp_index < 4 → r.status = "Low" ∧ r.color = "success")
        ∧ (4 ≤ r.kp_index → r.kp_index < 5 → r.status = "Moderate" ∧ r.color = "warning")
        ∧ (5 ≤ r.kp_index → r.status = "High (Storm)" ∧ r.color = "danger"))
    ∧ (∀ data latest kstr kp, 1 < data.length → data.getLast? = some latest →
        latest.get? 1 = some kstr → pyFloat kstr = some kp →
        ∃ r, fetch_aurora_data (.ok data) = some r ∧ r.kp_index = kp ∧
          latest.get? 0 = some r.timestamp)
    ∧ (fetch_aurora_data (.ok [["time_tag", "planetary_k_index", "dst_flag"],
          ["2025-12-09 00:00:00", "2.33", "0"]]) =
        some ⟨2.33, "Low", "success", "2025-12-09 00:00:00"⟩)
    ∧ (fetch_aurora_data (.ok [["time_tag", "planetary_k_index", "dst_flag"],
          ["2025-12-09 00:00:00", "6.67", "0"]]) =
        some ⟨6.67, "High (Storm)", "danger", "2025-12-09 00:00:00"⟩)
    ∧ (∀ e, fetch_aurora_data (.error e) = none)
    ∧ (fetch_aurora_data (.ok [["header"]]) = none) := by
  refine ⟨aurora_classified, ?_, ?_, ?_, fun e => rfl, rfl⟩
  · intro data latest kstr kp hlen hlast hk hf
    obtain ⟨ts, hts, hres⟩ := aurora_of_feed data latest kstr kp hlen hlast hk hf
    exact ⟨_, hres, rfl, hts⟩
  · obtain ⟨ts, hts, hres⟩ := aurora_of_feed
      [["time_tag", "planetary_k_index", "dst_flag"], ["2025-12-09 00:00:00", "2.33", "0"]]
      ["2025-12-09 00:00:00", "2.33", "0"] "2.33" (2.33 : ℚ)
      (by decide) rfl rfl pyFloat_233
    have hts2 : ts = "2025-12-09 00:00:00" :=
      (Option.some_inj.mp
        (show (some "2025-12-09 00:00:00" : Option String) = some ts from hts)).symm
    have h5 : ¬(5 : ℚ) ≤ 2.33 := by norm_num
    have h4 : ¬(4 : ℚ) ≤ 2.33 := by norm_num
    rw [hres, hts2, if_neg h5, if_neg h4, if_neg h5, if_neg h4]
  · obtain ⟨ts, hts, hres⟩ := aurora_of_feed
      [["time_tag", "planetary_k_index", "dst_flag"], ["2025-12-09 00:00:00", "6.67", "0"]]
      ["2025-12-09 00:00:00", "6.67", "0"] "6.67" (6.67 : ℚ)
      (by decide) rfl rfl pyFloat_667
    have hts2 : ts = "2025-12-09 00:00:00" :=
      (Option.some_inj.mp
        (show (some "2025-12-09 00:00:00" : Option String) = some ts from hts)).symm
    have h5 : (5 : ℚ) ≤ 6.67 := by norm_num
    rw [hres, hts2, if_pos h5, if_pos h5]

/-- Witness for C8: the threshold facts applied to the concrete storm
feed. -/
theorem C8_aurora_classification_witness :
    AuroraInfo.status ⟨6.67, "High (Storm)", "danger", "2025-12-09 00:00:00"⟩ = "High (Storm)"
    ∧ AuroraInfo.color ⟨6.67, "High (Storm)", "danger", "2025-12-09 00:00:00"⟩ = "danger" :=
  (C8_aurora_classification.1 (.ok [["time_tag", "planetary_k_index", "dst_flag"],
      ["2025-12-09 00:00:00", "6.67", "0"]])
    ⟨6.67, "High (Storm)", "danger", "2025-12-09 00:00:00"⟩
    C8_aurora_classification.2.2.2.1).2.2 (by norm_num)

/-! ## Claim C9 -/

theorem pySlice_nonneg {α : Type} (l : List α) (i j : Int) (hi : 0 ≤ i) (hj : 0 ≤ j) :
    pySlice l i j = (l.drop i.toNat).take (j.toNat - i.toNat) := by
  simp only [pySlice]
  rw [if_neg (by omega), if_neg (by omega), List.drop_take]
  by_cases hin : i ≤ (l.length : Int)
  · rw [min_eq_left hin]
    by_cases hjn : j ≤ (l.length : Int)
    · rw [min_eq_left hjn]
    · rw [min_eq_right (le_of_not_le hjn)]
      rw [List.take_of_length_le (by rw [List.length_drop]; omega),
        List.take_of_length_le (by rw [List.length_drop]; omega)]
  · have hmin : min i (l.length : Int) = (l.length : Int) := min_eq_right (le_of_not_le hin)
    have hminj : min j (l.length : Int) ≤ (l.length : Int) := min_le_right _ _
    rw [hmin]
    rw [show ((min j (l.length : Int)).toNat - ((l.length : Int)).toNat) = 0 by omega,
      List.take_zero, List.drop_eq_nil_of_le (show l.length ≤ i.toNat by omega),
      List.take_nil]

/-- C9: with `offset ≥ 0` and `limit > 0`, pagination returns
`events[offset:offset+limit]` (= drop `offset` then take `limit`) and
`has_more = (offset + slice_length) < total`; an out-of-range offset yields
an empty slice with `has_more = false`; a 30-element input at
`offset=20, limit=10` gives 10 elements and `has_more = false`, and a
50-element input at `offset=30, limit=10` gives 10 elements and
`has_more = true`. -/
theorem C9_pagination {α : Type} (events : List α) (offset limit : Int)
    (hoff : 0 ≤ offset) (hlim : 0 < limit) :
    ((paginate events offset limit).1 = (events.drop offset.toNat).take limit.toNat)
    ∧ ((paginate events offset limit).2 = true ↔
        offset + ((paginate events offset limit).1.length : Int) < (events.length : Int))
    ∧ ((events.length : Int) ≤ offset →
        (paginate events offset limit).1 = [] ∧ (paginate events offset limit).2 = false)
    ∧ ((paginate (List.range 30) 20 10).1.length = 10
        ∧ (paginate (List.range 30) 20 10).2 = false)
    ∧ ((paginate (List.range 50) 30 10).1.length = 10
        ∧ (paginate (List.range 50) 30 10).2 = true) := by
  have hslice : (paginate events offset limit).1 =
      (events.drop offset.toNat).take limit.toNat := by
    show pySlice events offset (offset + limit) = _
    rw [pySlice_nonneg events offset (offset + limit) hoff (by omega)]
    congr 1
    omega
  refine ⟨hslice, ?_, ?_, by decide, by decide⟩
  · simp only [paginate, decide_eq_true_eq]
  · intro h
    have hnil : events.drop offset.toNat = [] := List.drop_eq_nil_of_le (by omega)
    have hsl : (paginate events offset limit).1 = [] := by
      rw [hslice, hnil, List.take_nil]
    refine ⟨hsl, ?_⟩
    have hform : (paginate events offset limit).2 =
        decide (offset + ((paginate events offset limit).1.length : Int) <
          (events.length : Int)) := rfl
    rw [hform, hsl]
    simp only [List.length_nil, Nat.cast_zero, add_zero, decide_eq_false_iff_not, not_lt]
    exact h

/-- Witness for C9 at a concrete 30-element list, offset 20, limit 10. -/
theorem C9_pagination_witness :
    (paginate (List.range 30) 20 10).1 = ((List.range 30).drop 20).take 10 :=
  (C9_pagination (List.range 30) 20 10 (by decide) (by decide)).1


/-- Decidable equality of `Except` results, used to evaluate the embedded
functions at concrete inputs. -/
instance exceptDecEq {e a : Type} [DecidableEq e] [DecidableEq a] :
    DecidableEq (Except e a) := fun x y =>
  match x, y with
  | .ok u, .ok v =>
    if h : u = v then isTrue (by rw [h]) else isFalse (fun hc => h (Except.ok.inj hc))
  | .error u, .error v =>
    if h : u = v then isTrue (by rw [h]) else isFalse (fun hc => h (Except.error.inj hc))
  | .ok _, .error _ => isFalse (fun hc => Except.noConfusion hc)
  | .error _, .ok _ => isFalse (fun hc => Except.noConfusion hc)

/-! ## Sort-order lemmas -/

/-- The order the final sort establishes on sort keys: strictly earlier
instant, or equal instant with a body name that is not greater. -/
def keyLe (a b : PyDatetime × String) : Prop :=
  instantMicros a.1 < instantMicros b.1
    ∨ (instantMicros a.1 = instantMicros b.1 ∧ a.2 ≤ b.2)

theorem charListLt_iff : ∀ as bs : List Char, charListLt as bs = true ↔ List.lt as bs := by
  intro as
  induction as with
  | nil =>
    intro bs
    cases bs with
    | nil =>
      simp only [charListLt]
      exact ⟨fun h => Bool.noConfusion h, fun h => by cases h⟩
    | cons b bs =>
      simp only [charListLt]
      exact ⟨fun _ => List.lt.nil b bs, fun _ => trivial⟩
  | cons a as ih =>
    intro bs
    cases bs with
    | nil =>
      simp only [charListLt]
      exact ⟨fun h => Bool.noConfusion h, fun h => by cases h⟩
    | cons b bs =>
      simp only [charListLt]
      by_cases hab : a < b
      · rw [if_pos hab]
        exact ⟨fun _ => List.lt.head as bs hab, fun _ => rfl⟩
      · rw [if_neg hab]
        by_cases hba : b < a
        · rw [if_pos hba]
          constructor
          · intro h; exact Bool.noConfusion h
          · intro h
            cases h with
            | head _ _ h2 => exact absurd h2 hab
            | tail _ h2 _ => exact absurd hba h2
        · rw [if_neg hba]
          rw [ih bs]
          constructor
          · intro h; exact List.lt.tail hab hba h
          · intro h
            cases h with
            | head _ _ h2 => exact absurd h2 hab
            | tail _ _ h3 => exact h3

theorem pyStrLt_iff {a b : String} : pyStrLt a b = true ↔ a < b := by
  rw [pyStrLt, charListLt_iff, List.lt_iff_lex_lt, String.lt_iff_toList_lt]
  exact Iff.rfl

theorem keyLe_of_keyLtB_true {a b : PyDatetime × String} (h : keyLtB a b = true) :
    keyLe a b := by
  simp only [keyLtB, Bool.or_eq_true, Bool.and_eq_true, decide_eq_true_eq] at h
  rcases h with h | ⟨h1, h2⟩
  · exact Or.inl h
  · exact Or.inr ⟨h1, le_of_lt (pyStrLt_iff.mp h2)⟩

theorem keyLe_of_keyLtB_false {a b : PyDatetime × String} (h : keyLtB a b = false) :
    keyLe b a := by
  simp only [keyLtB, Bool.or_eq_false_iff, Bool.and_eq_false_iff, decide_eq_false_iff_not,
    not_lt] at h
  rcases h with ⟨h1, h2⟩
  rcases lt_or_eq_of_le h1 with hlt | heq
  · exact Or.inl hlt
  · rcases h2 with h2 | h2
    · exact absurd heq.symm h2
    · refine Or.inr ⟨heq, le_of_not_lt ?_⟩
      intro hlt2
      rw [← pyStrLt_iff] at hlt2
      rw [hlt2] at h2
      exact Bool.noConfusion h2

theorem keyLe_trans {a b c : PyDatetime × String} (h1 : keyLe a b) (h2 : keyLe b c) :
    keyLe a c := by
  rcases h1 with h1 | ⟨h1, h1s⟩ <;> rcases h2 with h2 | ⟨h2, h2s⟩
  · exact Or.inl (lt_trans h1 h2)
  · exact Or.inl (lt_of_lt_of_le h1 (le_of_eq h2))
  · exact Or.inl (lt_of_le_of_lt (le_of_eq h1) h2)
  · exact Or.inr ⟨h1.trans h2, le_trans h1s h2s⟩

theorem mem_insertEvent {x e : Event} : ∀ {l : List Event},
    x ∈ insertEvent e l ↔ x = e ∨ x ∈ l := by
  intro l
  induction l with
  | nil => simp [insertEvent]
  | cons f rest ih =>
    simp only [insertEvent]
    split
    · simp [List.mem_cons]
    · simp only [List.mem_cons, ih]
      tauto

theorem pairwise_insertEvent {e : Event} : ∀ {l : List Event},
    l.Pairwise (fun a b => keyLe (sortKey a) (sortKey b)) →
    (insertEvent e l).Pairwise (fun a b => keyLe (sortKey a) (sortKey b)) := by
  intro l
  induction l with
  | nil => intro _; simp [insertEvent]
  | cons f rest ih =>
    intro hp
    rw [List.pairwise_cons] at hp
    obtain ⟨hf, hrest⟩ := hp
    simp only [insertEvent]
    split
    · rename_i hlt
      rw [List.pairwise_cons]
      refine ⟨?_, List.pairwise_cons.mpr ⟨hf, hrest⟩⟩
      intro x hx
      rcases List.mem_cons.mp hx with rfl | hx2
      · exact keyLe_of_keyLtB_true hlt
      · exact keyLe_trans (keyLe_of_keyLtB_true hlt) (hf x hx2)
    · rename_i hnlt
      rw [List.pairwise_cons]
      refine ⟨?_, ih hrest⟩
      intro x hx
      rcases mem_insertEvent.mp hx with rfl | hx2
      · exact keyLe_of_keyLtB_false (Bool.of_not_eq_true hnlt)
      · exact hf x hx2

theorem pairwise_sort_foldl : ∀ (l acc : List Event),
    acc.Pairwise (fun a b => keyLe (sortKey a) (sortKey b)) →
    (l.foldl (fun acc e => insertEvent e acc) acc).Pairwise
      (fun a b => keyLe (sortKey a) (sortKey b)) := by
  intro l
  induction l with
  | nil => intro acc h; exact h
  | cons e rest ih =>
    intro acc h
    exact ih (insertEvent e acc) (pairwise_insertEvent h)

theorem pairwise_pySortEvents (l : List Event) :
    (pySortEvents l).Pairwise (fun a b => keyLe (sortKey a) (sortKey b)) :=
  pairwise_sort_foldl l [] (by simp)

theorem mem_sort_foldl {x : Event} : ∀ (l acc : List Event),
    x ∈ l.foldl (fun acc e => insertEvent e acc) acc ↔ x ∈ acc ∨ x ∈ l := by
  intro l
  induction l with
  | nil => intro acc; simp
  | cons e rest ih =>
    intro acc
    rw [List.foldl_cons, ih, mem_insertEvent]
    simp only [List.mem_cons]
    tauto

theorem mem_pySortEvents {x : Event} {l : List Event} :
    x ∈ pySortEvents l ↔ x ∈ l := by
  rw [pySortEvents, mem_sort_foldl]
  simp

theorem fetch_ok_iff (f : String → Except PyErr (List Row))
    (twRes : Except PyErr (List Event)) (l : List Event) :
    fetch_all_events f twRes = .ok l ↔
      ¬((bodyLoop f celestial_bodies ⟨[], []⟩ 0 0).2.1 = 0 ∧
          0 < (bodyLoop f celestial_bodies ⟨[], []⟩ 0 0).2.2)
      ∧ l = pySortEvents
          ((bodyLoop f celestial_bodies ⟨[], []⟩ 0 0).1.events_data ++ twilightList twRes) := by
  rw [fetch_all_events]
  split
  · rename_i hc
    simp only [reduceCtorEq, false_iff, not_and]
    intro hn
    exact absurd hc (by tauto)
  · rename_i hc
    simp only [Except.ok.injEq]
    constructor
    · intro h
      exact ⟨hc, h.symm⟩
    · intro ⟨_, h⟩
      exact h.symm

/-! ## Claim C2 -/

/-- C2 counterexample: with every body query empty, a twilight payload
yielding an unparseable peak ("not-a-date") and a parseable peak whose
instant exceeds the `datetime.max` UTC sentinel ("9999-12-31T23:59:59-01:00")
produces a final list in which the unparseable-peak event sorts BEFORE the
parseable-peak event, contradicting the claim that an unparseable peak
sorts after every parseable one. -/
theorem C2_counterexample :
    fetch_all_events (fun _ => .ok [])
        (.ok (fetch_twilight_events (.ok ⟨some ⟨some ["d1", "d2"],
          some ["9999-12-31T23:59:59-01:00", "not-a-date"], none, none, none⟩⟩))) =
      .ok [sunriseEvent "not-a-date", sunriseEvent "9999-12-31T23:59:59-01:00"]
    ∧ parse_iso (some "not-a-date") = none
    ∧ (parse_iso (some "9999-12-31T23:59:59-01:00")).isSome = true := by decide

/-- C2 amended: the list returned by `fetch_all_events` is sorted by the
key `(parsed peak instant — with an absent or unparseable peak mapped to
the datetime.max UTC sentinel, body name)` in lexicographic non-decreasing
order: adjacent events have strictly increasing key instants, or equal key
instants (which merges unparseable peaks with peaks parsing to the
sentinel) and non-decreasing body names. -/
theorem C2_sorted_amended (f : String → Except PyErr (List Row))
    (twRes : Except PyErr (List Event)) (l : List Event)
    (h : fetch_all_events f twRes = .ok l) :
    l.Chain' (fun a b => keyLe (sortKey a) (sortKey b)) := by
  obtain ⟨-, hl⟩ := (fetch_ok_iff f twRes l).mp h
  rw [hl]
  exact (pairwise_pySortEvents _).chain'

/-- Witness for C2's amended theorem at the counterexample input. -/
theorem C2_sorted_amended_witness :
    List.Chain' (fun a b => keyLe (sortKey a) (sortKey b))
      [sunriseEvent "not-a-date", sunriseEvent "9999-12-31T23:59:59-01:00"] :=
  C2_sorted_amended (fun _ => .ok [])
    (.ok (fetch_twilight_events (.ok ⟨some ⟨some ["d1", "d2"],
      some ["9999-12-31T23:59:59-01:00", "not-a-date"], none, none, none⟩⟩)))
    _ (by decide)


/-! ## Row-processing invariants -/

theorem transitFallback_ne_empty {row : Row} {d : String}
    (h : transitFallback row = some d) : d ≠ "" := by
  cases ht : row.transit with
  | none =>
    simp only [transitFallback, ht] at h
    exact Option.noConfusion h
  | some t =>
    cases htd : t.date with
    | none =>
      simp only [transitFallback, ht, htd] at h
      exact Option.noConfusion h
    | some d2 =>
      simp only [transitFallback, ht, htd] at h
      by_cases hd : d2 = ""
      · rw [if_pos hd] at h
        exact Option.noConfusion h
      · rw [if_neg hd, Option.some_inj] at h
        exact h ▸ hd

theorem optFalsy_false {res : Option String} (h : optFalsy res = false) :
    ∃ s, res = some s ∧ s ≠ "" := by
  cases res with
  | none => simp [optFalsy] at h
  | some s =>
    refine ⟨s, rfl, ?_⟩
    simp only [optFalsy] at h
    exact of_decide_eq_false h

/-- Case analysis of one row's processing: either the state is unchanged
(row discarded, or its pair already seen), or exactly one event is appended
whose pair was fresh, whose peak is non-empty, and whose peak is the
earliest sub-event peak when that is truthy and the transit fallback
otherwise. -/
theorem processRow_cases (bodyKey : String) (st : RowState) (row : Row) (st2 : RowState)
    (h : processRow bodyKey st row = .ok st2) :
    st2 = st ∨
    ∃ e res, earliest_peak_from_events (row.events.getD []) = .ok res
      ∧ st2.events_data = st.events_data ++ [e]
      ∧ st2.seen = st.seen ++ [(e.peak, e.body)]
      ∧ (e.peak, e.body) ∉ st.seen
      ∧ e.peak ≠ ""
      ∧ (optFalsy res = false → res = some e.peak)
      ∧ (optFalsy res = true → transitFallback row = some e.peak) := by
  cases hbn : baseNameOf bodyKey row with
  | error err =>
    simp only [processRow, hbn] at h
    exact Except.noConfusion h
  | ok base_name =>
    cases hep : earliest_peak_from_events (row.events.getD []) with
    | error err =>
      simp only [processRow, hbn, hep] at h
      exact Except.noConfusion h
    | ok res =>
      simp only [processRow, hbn, hep] at h
      split at h
      · exact Or.inl (Except.ok.inj h).symm
      · rename_i peak_date hpd
        split at h
        · exact Or.inl (Except.ok.inj h).symm
        · rename_i hmem
          right
          have hinj := Except.ok.inj h
          subst hinj
          have hpne : peak_date ≠ "" := by
            by_cases hof : optFalsy res = true
            · rw [if_pos hof] at hpd
              exact transitFallback_ne_empty hpd
            · rw [if_neg hof] at hpd
              obtain ⟨s, hs, hsne⟩ := optFalsy_false (Bool.of_not_eq_true hof)
              rw [hs, Option.some_inj] at hpd
              exact hpd ▸ hsne
          refine ⟨rowEvent base_name peak_date (row.events.getD []) row, res, rfl,
            rfl, rfl, hmem, hpne, ?_, ?_⟩
          · intro hf
            have hne : ¬(optFalsy res = true) := by simp [hf]
            rw [if_neg hne] at hpd
            exact hpd
          · intro ht
            rw [if_pos ht] at hpd
            exact hpd

/-- The loop invariant of the celestial-body phase: every accumulated
event's `(peak, body)` pair is registered in `seen`, the accumulated events
have pairwise distinct pairs, and every accumulated peak is non-empty. -/
def AggInv (st : RowState) : Prop :=
  (∀ e ∈ st.events_data, (e.peak, e.body) ∈ st.seen)
  ∧ st.events_data.Pairwise (fun a b => ¬(a.peak = b.peak ∧ a.body = b.body))
  ∧ (∀ e ∈ st.events_data, e.peak ≠ "")

theorem processRow_inv {bodyKey : String} {st : RowState} {row : Row} {st2 : RowState}
    (h : processRow bodyKey st row = .ok st2) (hinv : AggInv st) : AggInv st2 := by
  rcases processRow_cases bodyKey st row st2 h with rfl |
    ⟨e, res, _, hev, hseen, hnot, hpne, _, _⟩
  · exact hinv
  · obtain ⟨h1, h2, h3⟩ := hinv
    refine ⟨?_, ?_, ?_⟩
    · intro x hx
      rw [hev, List.mem_append] at hx
      rw [hseen, List.mem_append]
      rcases hx with hx | hx
      · exact Or.inl (h1 x hx)
      · rcases List.mem_singleton.mp hx with rfl
        exact Or.inr (List.mem_singleton.mpr rfl)
    · rw [hev, List.pairwise_append]
      refine ⟨h2, by simp, ?_⟩
      intro a ha b hb
      rcases List.mem_singleton.mp hb with rfl
      rintro ⟨hp, hb2⟩
      exact hnot (by rw [← hp, ← hb2]; exact h1 a ha)
    · intro x hx
      rw [hev, List.mem_append] at hx
      rcases hx with hx | hx
      · exact h3 x hx
      · rcases List.mem_singleton.mp hx with rfl
        exact hpne

theorem processRows_inv (bodyKey : String) : ∀ (rows : List Row) (st : RowState),
    AggInv st → AggInv (processRows bodyKey st rows).1 := by
  intro rows
  induction rows with
  | nil => intro st h; exact h
  | cons row rest ih =>
    intro st h
    simp only [processRows]
    cases hpr : processRow bodyKey st row with
    | ok st2 => exact ih st2 (processRow_inv hpr h)
    | error err => exact h

theorem bodyLoop_inv (f : String → Except PyErr (List Row)) :
    ∀ (bs : List String) (st : RowState) (s fl : Nat),
    AggInv st → AggInv (bodyLoop f bs st s fl).1 := by
  intro bs
  induction bs with
  | nil => intro st s fl h; exact h
  | cons b rest ih =>
    intro st s fl h
    simp only [bodyLoop]
    cases hfb : f b with
    | error err =>
      simp only [hfb]
      exact ih st s (fl + 1) h
    | ok rows =>
      simp only [hfb]
      split
      · exact ih st s fl h
      · cases hpr : processRows b st rows with
        | mk st2 raised =>
          have hst2 : AggInv st2 := by
            have := processRows_inv b rows st h
            rw [hpr] at this
            exact this
          cases raised
          · exact ih st2 (s + 1) fl hst2
          · exact ih st2 (s + 1) (fl + 1) hst2

theorem aggInv_init : AggInv ⟨[], []⟩ :=
  ⟨by simp, by simp, by simp⟩

/-! ## Claim C3 -/

/-- C3 counterexample: the celestial-body phase emits an event with pair
`("2025-01-01T00:00:00Z", "Sun")` and the twilight adapter independently
emits a sunrise event with the same peak string and body; the final list
contains both, so two events in the final list share the `(peak, body)`
pair. -/
theorem C3_counterexample :
    (fetch_all_events
        (fun b => if b = "sun" then
            .ok [{ body := some ⟨some "Sun"⟩,
                   events := some [⟨some "E", some ⟨some ⟨some "2025-01-01T00:00:00Z"⟩⟩⟩],
                   rise := none, set := none, transit := none, extraInfo := none }]
          else .ok [])
        (.ok (fetch_twilight_events (.ok ⟨some ⟨some ["2025-01-01"],
          some ["2025-01-01T00:00:00Z"], none, none, none⟩⟩)))).map
      (fun l => l.map (fun e => (e.peak, e.body))) =
      .ok [("2025-01-01T00:00:00Z", "Sun"), ("2025-01-01T00:00:00Z", "Sun")] := by decide

/-- C3 amended: no two events produced by the celestial-body-events phase
share the same `(peak string, canonical body name)` pair — a candidate
whose pair was already seen is silently dropped, so the first encountered
wins; twilight-adapter events are appended afterwards WITHOUT this
deduplication, so the full final list may repeat a pair. -/
theorem C3_dedup_amended :
    (∀ f : String → Except PyErr (List Row),
      ((bodyLoop f celestial_bodies ⟨[], []⟩ 0 0).1.events_data).Pairwise
        (fun a b => ¬(a.peak = b.peak ∧ a.body = b.body)))
    ∧ (∀ bodyKey st row st2, processRow bodyKey st row = .ok st2 →
        st2.events_data = st.events_data ∨
        ∃ e, st2.events_data = st.events_data ++ [e] ∧ (e.peak, e.body) ∉ st.seen) := by
  constructor
  · intro f
    exact (bodyLoop_inv f celestial_bodies ⟨[], []⟩ 0 0 aggInv_init).2.1
  · intro bodyKey st row st2 h
    rcases processRow_cases bodyKey st row st2 h with rfl |
      ⟨e, res, _, hev, _, hnot, _, _, _⟩
    · exact Or.inl rfl
    · exact Or.inr ⟨e, hev, hnot⟩

/-- Witness for C3's amended theorem: a row whose `(peak, body)` pair is
already in `seen` is dropped, leaving the events unchanged. -/
theorem C3_dedup_amended_witness :
    (⟨[("2025-01-01T00:00:00Z", "Sun")], []⟩ : RowState).events_data =
      (⟨[("2025-01-01T00:00:00Z", "Sun")], []⟩ : RowState).events_data
    ∨ ∃ e, (⟨[("2025-01-01T00:00:00Z", "Sun")], []⟩ : RowState).events_data =
        (⟨[("2025-01-01T00:00:00Z", "Sun")], []⟩ : RowState).events_data ++ [e]
        ∧ (e.peak, e.body) ∉ (⟨[("2025-01-01T00:00:00Z", "Sun")], []⟩ : RowState).seen :=
  C3_dedup_amended.2 "sun" ⟨[("2025-01-01T00:00:00Z", "Sun")], []⟩
    { body := some ⟨some "Sun"⟩,
      events := some [⟨some "E", some ⟨some ⟨some "2025-01-01T00:00:00Z"⟩⟩⟩],
      rise := none, set := none, transit := none, extraInfo := none }
    ⟨[("2025-01-01T00:00:00Z", "Sun")], []⟩ (by decide)

/-! ## Claim C4 -/

theorem twilight_peak_ne_empty {out : Except PyErr MeteoPayload} {e : Event}
    (h : e ∈ fetch_twilight_events out) : e.peak ≠ "" := by
  match out with
  | .error err => simp [fetch_twilight_events] at h
  | .ok payload =>
    simp only [fetch_twilight_events, List.mem_flatMap] at h
    obtain ⟨i, hi, hmem⟩ := h
    rw [List.mem_append] at hmem
    rcases hmem with hmem | hmem
    · split at hmem
      · rename_i hcond
        rcases List.mem_singleton.mp hmem with rfl
        exact hcond
      · simp at hmem
    · split at hmem
      · rename_i hcond
        rcases List.mem_singleton.mp hmem with rfl
        exact hcond
      · simp at hmem

/-- C4: every event in the output of `fetch_all_events` (composed with the
real twilight adapter) has a non-empty peak string; for a row whose
earliest-sub-event peak is falsy and whose transit date is absent, the row
is discarded (the state is unchanged); and the appended event's peak is the
earliest sub-event peak (via `_earliest_peak_from_events`, i.e. time
normalizer + `min`) when that is truthy, else the transit fallback. -/
theorem C4_nonnull_peak :
    (∀ f plOutcome l,
        fetch_all_events f (.ok (fetch_twilight_events plOutcome)) = .ok l →
        ∀ e ∈ l, e.peak ≠ "")
    ∧ (∀ bodyKey st row res base, baseNameOf bodyKey row = .ok base →
        earliest_peak_from_events (row.events.getD []) = .ok res →
        optFalsy res = true → transitFallback row = none →
        processRow bodyKey st row = .ok st)
    ∧ (∀ bodyKey st row st2 e res, processRow bodyKey st row = .ok st2 →
        st2.events_data = st.events_data ++ [e] →
        earliest_peak_from_events (row.events.getD []) = .ok res →
        (optFalsy res = false → res = some e.peak)
        ∧ (optFalsy res = true → transitFallback row = some e.peak)) := by
  refine ⟨?_, ?_, ?_⟩
  · intro f plo l h e he
    obtain ⟨-, hl⟩ := (fetch_ok_iff f (.ok (fetch_twilight_events plo)) l).mp h
    rw [hl] at he
    rcases List.mem_append.mp (mem_pySortEvents.mp he) with hx | hx
    · exact (bodyLoop_inv f celestial_bodies ⟨[], []⟩ 0 0 aggInv_init).2.2 e hx
    · exact twilight_peak_ne_empty hx
  · intro bodyKey st row res base hbn hep hof htf
    simp only [processRow, hbn, hep, if_pos hof, htf]
  · intro bodyKey st row st2 e res h hev hep
    rcases processRow_cases bodyKey st row st2 h with rfl |
      ⟨e2, res2, hep2, hev2, _, _, _, hf, ht⟩
    · exact absurd (congrArg List.length hev) (by simp)
    · have hres : res = res2 := by
        rw [hep] at hep2
        exact Except.ok.inj hep2
      subst hres
      have hlist : st.events_data ++ [e] = st.events_data ++ [e2] := hev.symm.trans hev2
      have he2 : e = e2 := by
        have h1 := List.append_cancel_left hlist
        simpa using h1
      subst he2
      exact ⟨hf, ht⟩

/-- Witness for C4 at a concrete aggregation: the sunrise event in the
output has a non-empty peak. -/
theorem C4_nonnull_peak_witness :
    (sunriseEvent "2025-01-01T06:00").peak ≠ "" :=
  C4_nonnull_peak.1 (fun _ => .ok [])
    (.ok ⟨some ⟨some ["2025-01-01"], some ["2025-01-01T06:00"], none, none, none⟩⟩)
    [sunriseEvent "2025-01-01T06:00"] (by decide)
    (sunriseEvent "2025-01-01T06:00") (by decide)


/-! ## Success/failure counting in the body loop -/

/-- Whether a body's adapter outcome is a raised exception. -/
def isErr : Except PyErr (List Row) → Bool
  | .error _ => true
  | .ok _ => false

theorem bodyLoop_successes_zero (f : String → Except PyErr (List Row)) :
    ∀ (bs : List String) (st : RowState) (s fl : Nat),
    (bodyLoop f bs st s fl).2.1 = 0 ↔
      (s = 0 ∧ ∀ b ∈ bs, ∀ rows, f b = .ok rows → rows = []) := by
  intro bs
  induction bs with
  | nil =>
    intro st s fl
    simp [bodyLoop]
  | cons b rest ih =>
    intro st s fl
    simp only [bodyLoop]
    cases hfb : f b with
    | error err =>
      simp only [hfb]
      rw [ih]
      simp only [List.mem_cons]
      constructor
      · rintro ⟨hs, hrest⟩
        refine ⟨hs, fun b2 hb2 rows hrows => ?_⟩
        rcases hb2 with rfl | hb2
        · rw [hfb] at hrows
          exact Except.noConfusion hrows
        · exact hrest b2 hb2 rows hrows
      · rintro ⟨hs, hall⟩
        exact ⟨hs, fun b2 hb2 rows hrows => hall b2 (Or.inr hb2) rows hrows⟩
    | ok rows =>
      simp only [hfb]
      by_cases hrows : rows = []
      · rw [if_pos hrows, ih]
        simp only [List.mem_cons]
        constructor
        · rintro ⟨hs, hrest⟩
          refine ⟨hs, fun b2 hb2 rows2 hrows2 => ?_⟩
          rcases hb2 with rfl | hb2
          · rw [hfb] at hrows2
            rw [← Except.ok.inj hrows2, hrows]
          · exact hrest b2 hb2 rows2 hrows2
        · rintro ⟨hs, hall⟩
          exact ⟨hs, fun b2 hb2 rows2 h2 => hall b2 (Or.inr hb2) rows2 h2⟩
      · rw [if_neg hrows]
        cases hpr : processRows b st rows with
        | mk st2 raised =>
          have hfail : ∀ fl2, ¬((bodyLoop f rest st2 (s + 1) fl2).2.1 = 0) := by
            intro fl2 hzero
            rw [ih] at hzero
            exact Nat.succ_ne_zero s hzero.1
          have hright : ¬(s = 0 ∧ ∀ b2 ∈ b :: rest, ∀ rows2, f b2 = .ok rows2 → rows2 = []) := by
            rintro ⟨-, hall⟩
            exact hrows (hall b (List.mem_cons_self b rest) rows hfb)
          cases raised
          · exact ⟨fun hz => absurd hz (hfail fl), fun hr => absurd hr hright⟩
          · exact ⟨fun hz => absurd hz (hfail (fl + 1)), fun hr => absurd hr hright⟩

theorem bodyLoop_all_empty (f : String → Except PyErr (List Row)) :
    ∀ (bs : List String) (st : RowState) (s fl : Nat),
    (∀ b ∈ bs, ∀ rows, f b = .ok rows → rows = []) →
    bodyLoop f bs st s fl = (st, s, fl + bs.countP (fun b => isErr (f b))) := by
  intro bs
  induction bs with
  | nil =>
    intro st s fl _
    simp [bodyLoop]
  | cons b rest ih =>
    intro st s fl hall
    have hrest : ∀ b2 ∈ rest, ∀ rows, f b2 = .ok rows → rows = [] :=
      fun b2 hb2 rows h2 => hall b2 (List.mem_cons_of_mem b hb2) rows h2
    simp only [bodyLoop]
    cases hfb : f b with
    | error err =>
      simp only [hfb]
      rw [ih st s (fl + 1) hrest,
        List.countP_cons_of_pos _ _ (by rw [hfb]; rfl)]
      simp only [Prod.mk.injEq]
      refine ⟨trivial, trivial, by omega⟩
    | ok rows =>
      have hempty : rows = [] := hall b (List.mem_cons_self b rest) rows hfb
      simp only [hfb, if_pos hempty]
      rw [List.countP_cons_of_neg _ _ (by rw [hfb]; simp [isErr]),
        ih st s fl hrest]

theorem countP_isErr_pos (f : String → Except PyErr (List Row)) (bs : List String) :
    0 < bs.countP (fun b => isErr (f b)) ↔ ∃ b ∈ bs, ∃ err, f b = .error err := by
  rw [List.countP_pos_iff]
  constructor
  · rintro ⟨b, hb, hp⟩
    refine ⟨b, hb, ?_⟩
    cases hfb : f b with
    | error err => exact ⟨err, rfl⟩
    | ok rows =>
      rw [hfb] at hp
      simp [isErr] at hp
  · rintro ⟨b, hb, err, herr⟩
    exact ⟨b, hb, by rw [herr]; rfl⟩

/-! ## Claim C1 -/

/-- C1: `fetch_all_events` raises its aggregate failure if and only if no
roster body's adapter call returned a non-empty row list AND at least one
call raised; in particular an all-403 roster raises, and an all-empty
roster (no rows, no errors, and an empty twilight result) returns `[]`
without raising. -/
theorem C1_escalation_iff (f : String → Except PyErr (List Row))
    (twRes : Except PyErr (List Event)) :
    ((∃ msg, fetch_all_events f twRes = .error msg) ↔
      ((∀ b ∈ celestial_bodies, ∀ rows, f b = .ok rows → rows = []) ∧
        (∃ b ∈ celestial_bodies, ∃ err, f b = .error err)))
    ∧ ((∀ b ∈ celestial_bodies, f b = .error (.httpError (some 403))) →
        ∃ msg, fetch_all_events f twRes = .error msg)
    ∧ ((∀ b ∈ celestial_bodies, f b = .ok []) →
        fetch_all_events f (.ok []) = .ok []) := by
  have hcond : ∀ tw, (∃ msg, fetch_all_events f tw = .error msg) ↔
      ((bodyLoop f celestial_bodies ⟨[], []⟩ 0 0).2.1 = 0 ∧
        0 < (bodyLoop f celestial_bodies ⟨[], []⟩ 0 0).2.2) := by
    intro tw
    rw [fetch_all_events]
    split
    · rename_i hc
      exact ⟨fun _ => hc, fun _ => ⟨_, rfl⟩⟩
    · rename_i hc
      exact ⟨fun ⟨msg, hmsg⟩ => Except.noConfusion hmsg, fun hcc => absurd hcc hc⟩
  have hiff : (∃ msg, fetch_all_events f twRes = .error msg) ↔
      ((∀ b ∈ celestial_bodies, ∀ rows, f b = .ok rows → rows = []) ∧
        (∃ b ∈ celestial_bodies, ∃ err, f b = .error err)) := by
    rw [hcond twRes]
    constructor
    · rintro ⟨hz, hpos⟩
      have hall := ((bodyLoop_successes_zero f celestial_bodies ⟨[], []⟩ 0 0).mp hz).2
      refine ⟨hall, ?_⟩
      rw [bodyLoop_all_empty f celestial_bodies ⟨[], []⟩ 0 0 hall] at hpos
      exact (countP_isErr_pos f celestial_bodies).mp (by simpa using hpos)
    · rintro ⟨hall, hex⟩
      constructor
      · exact (bodyLoop_successes_zero f celestial_bodies ⟨[], []⟩ 0 0).mpr ⟨rfl, hall⟩
      · rw [bodyLoop_all_empty f celestial_bodies ⟨[], []⟩ 0 0 hall]
        simpa using (countP_isErr_pos f celestial_bodies).mpr hex
  refine ⟨hiff, ?_, ?_⟩
  · intro h403
    refine hiff.mpr ⟨?_, ?_⟩
    · intro b hb rows hrows
      rw [h403 b hb] at hrows
      exact Except.noConfusion hrows
    · exact ⟨"sun", by simp [celestial_bodies], .httpError (some 403), h403 "sun" (by simp [celestial_bodies])⟩
  · intro hempty
    have hall : ∀ b ∈ celestial_bodies, ∀ rows, f b = .ok rows → rows = [] := by
      intro b hb rows hrows
      rw [hempty b hb] at hrows
      exact (Except.ok.inj hrows).symm
    rw [fetch_all_events, bodyLoop_all_empty f celestial_bodies ⟨[], []⟩ 0 0 hall]
    have hcount : celestial_bodies.countP (fun b => isErr (f b)) = 0 := by
      rw [List.countP_eq_zero]
      intro b hb
      rw [hempty b hb]
      simp [isErr]
    rw [hcount]
    simp [pySortEvents, twilightList]

/-- Witness for C1: an all-403 roster raises, evaluated at the constant
403 adapter and an empty twilight result. -/
theorem C1_escalation_iff_witness :
    ∃ msg, fetch_all_events (fun _ => .error (.httpError (some 403))) (.ok []) = .error msg :=
  (C1_escalation_iff (fun _ => .error (.httpError (some 403))) (.ok [])).2.1
    (fun _ _ => rfl)

/-! ## Claim C10 -/

/-- C10: when the escalation condition holds (no body produced rows and at
least one body call raised), `fetch_all_events` raises its aggregate error
whatever the twilight adapter fetched — a non-empty twilight list is
discarded and no partial data is returned. -/
theorem C10_escalation_discards_twilight (f : String → Except PyErr (List Row))
    (tw : List Event)
    (hempty : ∀ b ∈ celestial_bodies, ∀ rows, f b = .ok rows → rows = [])
    (hfail : ∃ b ∈ celestial_bodies, ∃ err, f b = .error err) :
    fetch_all_events f (.ok tw) = .error "Upstream Radiant Drift API failure" := by
  rw [fetch_all_events, bodyLoop_all_empty f celestial_bodies ⟨[], []⟩ 0 0 hempty]
  rw [if_pos]
  exact ⟨rfl, by simpa using (countP_isErr_pos f celestial_bodies).mpr hfail⟩

/-- Witness for C10: a non-empty twilight list is discarded when every body
call raises a connection error. -/
theorem C10_escalation_discards_twilight_witness :
    fetch_all_events (fun _ => .error .requestException)
        (.ok [sunriseEvent "2025-01-01T06:00"]) =
      .error "Upstream Radiant Drift API failure" :=
  C10_escalation_discards_twilight (fun _ => .error .requestException)
    [sunriseEvent "2025-01-01T06:00"]
    (fun b _ rows hrows => Except.noConfusion hrows)
    ⟨"sun", by simp [celestial_bodies], .requestException, rfl⟩

end CelestiaTrack
